import Mathlib

/-!
Shallow embedding of `src/api/agent/call.go` (package `agent` of abhirockzz/fn):
call assembly (`GetCall` and the `CallOpt` configurators), config synthesis
(`buildConfig`, `buildTriggerConfig`), admission, and the call lifecycle
(`call.Start`, `call.End`).

Go maps written in program order are modelled as association lists where a
write prepends its entry, so a lookup that returns the first match sees the
last write — exactly "later writes win".  Go `error` values are modelled by
the inductive `GoErr`; a run-time panic (failed type assertion) is a separate
outcome constructor, distinct from returning an error.  External collaborator
results (hook errors, the resource gate, the body read, `mime.ParseMediaType`)
enter the model as explicit inputs, since the Go code only branches on their
results.
-/

namespace FnAgent

/-- A Go `map[string]string` under a sequence of writes: a write prepends, a
lookup takes the first (i.e. most recent) matching entry. -/
abbrev ConfigMap := List (String × String)

/-- One map write `conf[k] = v`. -/
def ConfigMap.set (c : ConfigMap) (k v : String) : ConfigMap := (k, v) :: c

/-- Map lookup: value of the most recent write of key `k`, if any. -/
def ConfigMap.get? (c : ConfigMap) (k : String) : Option String :=
  (c.find? fun p => p.1 == k).map Prod.snd

/-- Write every entry of `entries`, in order (the `for k, v := range` copy
loops in `buildConfig`/`buildTriggerConfig`). -/
def ConfigMap.writeAll (c : ConfigMap) (entries : List (String × String)) : ConfigMap :=
  entries.foldl (fun acc kv => acc.set kv.1 kv.2) c

theorem ConfigMap.get_set_self (c : ConfigMap) (k v : String) :
    (c.set k v).get? k = some v := by
  simp [ConfigMap.set, ConfigMap.get?]

theorem ConfigMap.get_set_other (c : ConfigMap) (k v k' : String) (h : k' ≠ k) :
    (c.set k v).get? k' = c.get? k' := by
  have hne : (k == k') = false := by
    simp only [beq_eq_false_iff_ne]
    exact fun heq => h heq.symm
  simp [ConfigMap.set, ConfigMap.get?, List.find?, hne]

/-- `models.App`, restricted to the fields `call.go` reads. -/
structure App where
  id : String
  name : String
  syslogURL : Option String
  config : List (String × String)
  annots : List (String × String)
deriving DecidableEq, Repr

/-- `models.Route`, restricted to the fields `call.go` reads. -/
structure Route where
  path : String
  image : String
  type : String
  format : String
  timeout : Nat
  idleTimeout : Nat
  tmpFsSize : Nat
  memory : Nat
  cpus : Nat
  config : List (String × String)
  annots : List (String × String)
  headers : List (String × List String)
deriving DecidableEq, Repr

/-- `models.Fn`, restricted to the fields `call.go` reads. -/
structure Fn where
  id : String
  image : String
  format : String
  timeout : Nat
  idleTimeout : Nat
  memory : Nat
  config : List (String × String)
  annots : List (String × String)
deriving DecidableEq, Repr

/-- `models.Trigger`, restricted to the fields `call.go` reads. -/
structure Trigger where
  id : String
  source : String
  annots : List (String × String)
deriving DecidableEq, Repr

/-- Modelled from the spec: the CPU quantity's own string representation
(`models.MilliCPUs.String`, whose source is not under `src/`): empty for the
zero quantity, otherwise the quantity's own formatting (millicpu decimal). -/
def milliCPUsStr (c : Nat) : String :=
  if c = 0 then "" else toString c ++ "m"

/-- `buildConfig` (src/api/agent/call.go lines 300-322): app config, then
route config, then the synthesized keys, `FN_CPUS` only when the CPU string
is non-empty. -/
def buildConfig (app : App) (route : Route) : ConfigMap :=
  let conf : ConfigMap := []
  let conf := conf.writeAll app.config
  let conf := conf.writeAll route.config
  let conf := conf.set "FN_FORMAT" route.format
  let conf := conf.set "FN_APP_NAME" app.name
  let conf := conf.set "FN_PATH" route.path
  let conf := conf.set "FN_MEMORY" (toString route.memory)
  let conf := conf.set "FN_TYPE" route.type
  let conf := conf.set "FN_TMPSIZE" (toString route.tmpFsSize)
  let cpus := milliCPUsStr route.cpus
  if cpus ≠ "" then conf.set "FN_CPUS" cpus else conf

/-- `buildTriggerConfig` (src/api/agent/call.go lines 324-342): app config,
then fn config, then the synthesized keys; note no `FN_TMPSIZE` and no
`FN_CPUS` key is ever written here. -/
def buildTriggerConfig (app : App) (fn : Fn) (trigger : Trigger) : ConfigMap :=
  let conf : ConfigMap := []
  let conf := conf.writeAll app.config
  let conf := conf.writeAll fn.config
  let conf := conf.set "FN_FORMAT" fn.format
  let conf := conf.set "FN_APP_NAME" app.name
  let conf := conf.set "FN_PATH" trigger.source
  let conf := conf.set "FN_MEMORY" (toString fn.memory)
  let conf := conf.set "FN_TYPE" "sync"
  let conf := conf.set "FN_FN_ID" fn.id
  conf

/-- Go `error` values as `call.go` distinguishes them: the two context
sentinels, the typed busy error `models.ErrCallTimeoutServerBusy`, the two
`errors.New` literals of this file, `fmt.Errorf`-wrapped hook errors, and
arbitrary other errors. -/
inductive GoErr where
  | deadlineExceeded
  | canceled
  | errCallTimeoutServerBusy
  | extensionsNotMap
  | noModelProvided
  | wrapped (pre : String) (e : GoErr)
  | mk (msg : String)
deriving DecidableEq, Repr

/-- `err.Error()`: the message of an error value. -/
def GoErr.message : GoErr → String
  | .deadlineExceeded => "context deadline exceeded"
  | .canceled => "context canceled"
  | .errCallTimeoutServerBusy => "Timed out - server too busy"
  | .extensionsNotMap => "cloud event extensions must be marshaled with known type"
  | .noModelProvided => "no model or request provided for call"
  | .wrapped pre e => pre ++ ": " ++ e.message
  | .mk msg => msg

/-- One execution statistics sample (`drivers.Stat`): a timestamp plus
metric values. -/
structure Stat where
  timestamp : Nat
  metrics : List (String × Nat)
deriving DecidableEq, Repr, Inhabited

/-- Modelled from the spec: `models.Annotations.MergeChange` (not under
`src/`) merges two annotation sets, later layers overriding earlier keys on
conflict. -/
def mergeAnnots (a b : List (String × String)) : List (String × String) :=
  ConfigMap.writeAll (ConfigMap.writeAll [] a) b

/-- Modelled from the spec: `drivers.Decimate` (not under `src/`) bounds a
stats series to at most `maxSamples` retained samples, preserving
chronological order; when over the bound it keeps `maxSamples` evenly spaced
representative samples. -/
def Decimate (maxSamples : Nat) (stats : List Stat) : List Stat :=
  if stats.length ≤ maxSamples then stats
  else (List.range maxSamples).map (fun i => stats.getD (i * stats.length / maxSamples) default)

/-- `models.Call`, with the fields `call.go` reads or writes.  Machine
integers (`uint64` memory/CPUs, `uint32` tmpfs size) are carried as `Nat`;
where Go arithmetic can wrap, the embedding takes the result mod `2^64`
explicitly.  Timestamps (`common.DateTime`) are `Nat` instants. -/
structure ModelsCall where
  id : String := ""
  path : String := ""
  image : String := ""
  type : String := ""
  format : String := ""
  priority : Option Int := none
  timeout : Nat := 0
  idleTimeout : Nat := 0
  tmpFsSize : Nat := 0
  memory : Nat := 0
  cpus : Nat := 0
  config : ConfigMap := []
  annots : List (String × String) := []
  headers : List (String × List String) := []
  createdAt : Nat := 0
  url : String := ""
  method : String := ""
  appID : String := ""
  fnID : String := ""
  triggerID : String := ""
  syslogURL : String := ""
  payload : String := ""
  startedAt : Nat := 0
  completedAt : Nat := 0
  status : String := ""
  error : String := ""
  stats : List Stat := []
deriving DecidableEq, Repr

/-- The agent-side `call` struct wrapper state that the configurators and
`GetCall` touch.  `w`/`stderr` writer handles are abstracted to the facts the
code branches on: whether `c.w` is set, and whether it is an
`http.ResponseWriter` (in which case `respHeaders` records the header writes
made to it, in order). -/
structure CallRec where
  model : Option ModelsCall := none
  isCloudEvent : Bool := false
  wSet : Bool := false
  wIsHTTP : Bool := false
  respHeaders : List (String × String) := []
  stderrSet : Bool := false
  wIsStderr : Bool := false
  isLB : Bool := false
  slotHashId : String := ""
  extensions : List (String × String) := []
deriving DecidableEq, Repr

/-- `2^64`, the wrap modulus of Go `uint64` arithmetic. -/
def U64 : Nat := 2 ^ 64

/-- `ceMimeType` constant of `call.go`. -/
def ceMimeType : String := "application/cloudevents+json"

/-- An inbound HTTP request, reduced to what the configurators read.
`parsedCT` is the outcome of the external `mime.ParseMediaType` call on the
`Content-Type` header: `none` when parsing errored, otherwise the parsed
media type with parameters (such as `charset`) already stripped.  `bodyRead`
is the outcome of `setCallPayload`'s read of `req.Body`: the payload string,
or the I/O or context error that aborted it. -/
structure Request where
  parsedCT : Option String
  headers : List (String × List String)
  method : String
  url : String
  bodyRead : Except GoErr String

/-- Modelled from the spec: `models.Route.Validate` (not under `src/`)
"ensures that there is an image, path, timeouts, memory, etc are valid",
returning an invalid-route error otherwise. -/
def routeValidate (r : Route) : Option GoErr :=
  if r.image = "" then some (GoErr.mk "route image is invalid")
  else if r.path = "" then some (GoErr.mk "route path is invalid")
  else if r.timeout = 0 then some (GoErr.mk "route timeout is invalid")
  else if r.idleTimeout = 0 then some (GoErr.mk "route idle timeout is invalid")
  else if r.memory = 0 then some (GoErr.mk "route memory is invalid")
  else none

/-- The `rw.Header().Add(k, v)` loop over a `http.Header` map: one write per
value, in order. -/
def flattenHeaders (hs : List (String × List String)) : List (String × String) :=
  (hs.map (fun kv => kv.2.map (fun v => (kv.1, v)))).flatten

/-- Result of running the `FromRequest` closure: the Go return error, the
mutated `call` receiver, and the route object it mutated through the caller's
pointer. -/
structure FromRequestOut where
  err : Option GoErr
  c : CallRec
  route : Route
deriving DecidableEq, Repr

/-- The content-type sniffing block shared by `FromRequest` and
`FromHTTPTriggerRequest`: given the parsed media type, the current
`IsCloudEvent` flag and the source's `Format` field, produce the updated flag
and format — cloudevent detection forces both; a parse error or another
media type leaves them; an empty format then falls back to the default. -/
def ceSniff (parsedCT : Option String) (isCE : Bool) (fmt : String) : Bool × String :=
  let (isCE, fmt) :=
    match parsedCT with
    | none => (isCE, fmt)
    | some t => if t = ceMimeType then (true, "cloudevent") else (isCE, fmt)
  (isCE, if fmt = "" then "default" else fmt)

theorem ceSniff_ce (isCE : Bool) (fmt : String) :
    ceSniff (some ceMimeType) isCE fmt = (true, "cloudevent") := rfl

theorem ceSniff_other (parsedCT : Option String) (isCE : Bool) (fmt : String)
    (h : parsedCT ≠ some ceMimeType) :
    ceSniff parsedCT isCE fmt = (isCE, if fmt = "" then "default" else fmt) := by
  rcases parsedCT with _ | t
  · rfl
  · have ht : t ≠ ceMimeType := fun heq => h (by rw [heq])
    simp [ceSniff, ht]

/-- `FromRequest` (src/api/agent/call.go lines 58-131).  `newId` stands for
the freshly generated `id.New().String()` and `now` for `time.Now()`. -/
def FromRequest (app : App) (route : Route) (req : Request) (newId : String)
    (now : Nat) (c : CallRec) : FromRequestOut :=
  let sniffed := ceSniff req.parsedCT c.isCloudEvent route.format
  let route := { route with format := sniffed.2 }
  let c := { c with isCloudEvent := sniffed.1 }
  let c :=
    { c with respHeaders :=
        if c.wIsHTTP then
          c.respHeaders ++ [("FN_CALL_ID", newId)] ++ flattenHeaders route.headers
        else c.respHeaders }
  match routeValidate route with
  | some e => ⟨some e, c, route⟩
  | none =>
    let syslogURL := (app.syslogURL).getD ""
    let m : ModelsCall :=
      { id := newId, path := route.path, image := route.image,
        type := route.type, format := route.format, priority := some 0,
        timeout := route.timeout, idleTimeout := route.idleTimeout,
        tmpFsSize := route.tmpFsSize, memory := route.memory, cpus := route.cpus,
        config := buildConfig app route,
        annots := mergeAnnots app.annots route.annots,
        headers := req.headers, createdAt := now, url := req.url,
        method := req.method, appID := app.id, syslogURL := syslogURL }
    match req.bodyRead with
    | .error e => ⟨some e, { c with model := some m }, route⟩
    | .ok s => ⟨none, { c with model := some { m with payload := s } }, route⟩

/-- Result of running the `FromHTTPTriggerRequest` closure: the Go return
error, the mutated `call` receiver, and the fn object it mutated through the
caller's pointer. -/
structure FromTriggerOut where
  err : Option GoErr
  c : CallRec
  fn : Fn
deriving DecidableEq, Repr

/-- `FromHTTPTriggerRequest` (src/api/agent/call.go lines 234-298). -/
def FromHTTPTriggerRequest (app : App) (fn : Fn) (trigger : Trigger)
    (req : Request) (newId : String) (now : Nat) (c : CallRec) : FromTriggerOut :=
  let sniffed := ceSniff req.parsedCT c.isCloudEvent fn.format
  let fn := { fn with format := sniffed.2 }
  let c := { c with isCloudEvent := sniffed.1 }
  let c :=
    { c with respHeaders :=
        if c.wIsHTTP then c.respHeaders ++ [("FN_CALL_ID", newId)]
        else c.respHeaders }
  let syslogURL := (app.syslogURL).getD ""
  let m : ModelsCall :=
    { id := newId, path := trigger.source, image := fn.image,
      type := "sync", format := fn.format, priority := some 0,
      timeout := fn.timeout, idleTimeout := fn.idleTimeout,
      tmpFsSize := 0, memory := fn.memory, cpus := 0,
      config := buildTriggerConfig app fn trigger,
      annots := mergeAnnots (mergeAnnots app.annots fn.annots) trigger.annots,
      headers := req.headers, createdAt := now, url := req.url,
      method := req.method, appID := app.id, fnID := fn.id,
      triggerID := trigger.id, syslogURL := syslogURL }
  match req.bodyRead with
  | .error e => ⟨some e, { c with model := some m }, fn⟩
  | .ok s => ⟨none, { c with model := some { m with payload := s } }, fn⟩

/-- A value stored in the cloud event's dynamic extension map
(`interface{}`). -/
inductive ExtVal where
  | appV (a : App)
  | fnV (f : Fn)
  | triggerV (t : Trigger)
  | otherV (s : String)
deriving DecidableEq, Repr

/-- The dynamic `event.Extensions` field: either a
`map[string]interface{}` or some other dynamic type. -/
inductive ExtDyn where
  | map (m : List (String × ExtVal))
  | nonMap (s : String)
deriving DecidableEq, Repr

/-- `cloudevent.CloudEvent`, reduced to the field `FromEvent` reads. -/
structure CloudEvent where
  extensions : ExtDyn
deriving DecidableEq, Repr

/-- Go map lookup on the extension map (keys are unique in a Go map; first
match). A missing key yields the nil interface. -/
def extLookup (m : List (String × ExtVal)) (k : String) : Option ExtVal :=
  (m.find? fun p => p.1 == k).map Prod.snd

/-- Outcome of running Go code that can return normally, return an error, or
panic (a failed unchecked type assertion). -/
inductive GoResult (α : Type) where
  | ok (val : α)
  | err (e : GoErr)
  | panicked (msg : String)
deriving DecidableEq, Repr

/-- `FromEvent` (src/api/agent/call.go lines 187-230).  The one checked
assertion is `event.Extensions.(map[string]interface{})`; the `app` and `fn`
entries are read with unchecked type assertions (panic on missing key or
wrong dynamic type), and the trigger is read — as written in the source —
from key `"fn"`, again with an unchecked assertion. -/
def FromEvent (event : CloudEvent) (newId : String) (c : CallRec) : GoResult CallRec :=
  match event.extensions with
  | .nonMap _ => .err GoErr.extensionsNotMap
  | .map ext =>
    match extLookup ext "app" with
    | some (.appV app) =>
      match extLookup ext "fn" with
      | some (.fnV fn) =>
        match extLookup ext "fn" with
        | some (.triggerV trigger) =>
          let syslogURL := (app.syslogURL).getD ""
          let m : ModelsCall :=
            { id := newId, image := fn.image, timeout := fn.timeout,
              idleTimeout := fn.idleTimeout, tmpFsSize := 0,
              memory := fn.memory, cpus := 0, syslogURL := syslogURL,
              annots := mergeAnnots (mergeAnnots app.annots fn.annots) trigger.annots,
              type := "sync", format := "cloudevent" }
          .ok { c with model := some m }
        | _ => .panicked "interface conversion to Trigger"
      | _ => .panicked "interface conversion to Fn"
    | _ => .panicked "interface conversion to App"

/-- A configurator (`CallOpt`) as `GetCall` consumes it: it may mutate the
`call` under construction or fail with an error. -/
abbrev CallOptF := CallRec → Except GoErr CallRec

/-- `FromModel` (src/api/agent/call.go lines 359-364). -/
def FromModel (mCall : ModelsCall) : CallOptF :=
  fun c => .ok { c with model := some mCall }

/-- `FromModelAndInput` (src/api/agent/call.go lines 367-372), with the
outcome of reading the provided stream passed in as `bodyRead`. -/
def FromModelAndInput (mCall : ModelsCall) (bodyRead : Except GoErr String) : CallOptF :=
  fun c =>
    match bodyRead with
    | .error e => .error e
    | .ok s => .ok { c with model := some { mCall with payload := s } }

/-- `WithWriter` (src/api/agent/call.go lines 376-381); `isHTTP` records
whether the supplied writer is an `http.ResponseWriter`. -/
def WithWriter (isHTTP : Bool) : CallOptF :=
  fun c => .ok { c with wSet := true, wIsHTTP := isHTTP }

/-- `WithExtensions` (src/api/agent/call.go lines 385-390). -/
def WithExtensions (ext : List (String × String)) : CallOptF :=
  fun c => .ok { c with extensions := ext }

/-- The `for _, o := range opts` loop of `GetCall`: apply each configurator
in order, stopping at the first error. -/
def applyOpts : List CallOptF → CallRec → Except GoErr CallRec
  | [], c => .ok c
  | o :: os, c =>
    match o c with
    | .error e => .error e
    | .ok c' => applyOpts os c'

/-- The agent state `GetCall` reads: the optional call overrider and the
resource-accounting collaborator.  The overrider receives the call model by
pointer, so it may rewrite both the model and the extension map. -/
structure Agent where
  callOverrider :
    Option (ModelsCall → List (String × String) →
            Except GoErr (ModelsCall × List (String × String)))
  isResourcePossible : Nat → Nat → Bool → Bool

/-- `GetCall`'s outcome plus an observation trace: every query made to the
resource-accounting collaborator (`IsResourcePossible` arguments, in order)
and every lifecycle hook fired during assembly (none occur in the source). -/
structure GetCallOut where
  result : Except GoErr CallRec
  admissionChecks : List (Nat × Nat × Bool)
  hookFires : List String

/-- The `a.callOverrider` block of `GetCall`: the identity when no overrider
is configured, otherwise the overrider's rewrite of the model and extension
map (or its error). -/
def runOverrider (a : Agent) (m : ModelsCall) (ext : List (String × String)) :
    Except GoErr (ModelsCall × List (String × String)) :=
  match a.callOverrider with
  | none => .ok (m, ext)
  | some f => f m ext

/-- `agent.GetCall` (src/api/agent/call.go lines 395-438): run the
configurators, fail if no model was provided, run the overrider if present,
then the admission gate on `c.Memory + uint64(c.TmpFsSize)` and
`uint64(c.CPUs)` with the async flag, and finally wire up logger/writer. -/
def GetCall (a : Agent) (opts : List CallOptF) : GetCallOut :=
  match applyOpts opts {} with
  | .error e => ⟨.error e, [], []⟩
  | .ok c =>
    match c.model with
    | none => ⟨.error GoErr.noModelProvided, [], []⟩
    | some m =>
      match runOverrider a m c.extensions with
      | .error e => ⟨.error e, [], []⟩
      | .ok (m', ext') =>
        let c := { c with model := some m', extensions := ext' }
        let mem := (m'.memory + m'.tmpFsSize) % U64
        let cpus := m'.cpus % U64
        let isAsync := m'.type == "async"
        if a.isResourcePossible mem cpus isAsync = false then
          ⟨.error GoErr.errCallTimeoutServerBusy, [(mem, cpus, isAsync)], []⟩
        else
          let c := { c with stderrSet := true }
          let c := if c.wSet then c else { c with wSet := true, wIsStderr := true }
          ⟨.ok c, [(mem, cpus, isAsync)], []⟩

/-- The state `Start`/`End` operate on: the (non-nil) call model plus the
wrapper fields the lifecycle reads. -/
structure LiveCall where
  m : ModelsCall := {}
  isLB : Bool := false
  wIsHTTP : Bool := false
  respHeaders : List (String × String) := []
  stderrClosed : Bool := false
deriving DecidableEq, Repr

/-- External inputs of one `Start` run: the result of `ctx.Err()`, the
current time, and the outcomes of the two collaborator calls (consulted only
if the code reaches them). -/
structure StartEnv where
  ctxErr : Option GoErr
  now : Nat
  handlerStartErr : Option GoErr
  beforeCallErr : Option GoErr
deriving DecidableEq, Repr

/-- Observable collaborator invocations made by `Start`, with the model they
were handed. -/
inductive StartEvent where
  | handlerStart (m : ModelsCall)
  | beforeCall (m : ModelsCall)
deriving DecidableEq, Repr

/-- `call.Start` (src/api/agent/call.go lines 512-553). -/
def callStart (env : StartEnv) (c : LiveCall) :
    Option GoErr × LiveCall × List StartEvent :=
  match env.ctxErr with
  | some e => (some e, c, [])
  | none =>
    let c := { c with m := { c.m with startedAt := env.now, status := "running" } }
    let c :=
      if ¬c.isLB ∧ c.wIsHTTP then
        { c with respHeaders :=
            c.respHeaders ++ [("XXX-FXLB-WAIT", toString (env.now - c.m.createdAt) ++ "ns")] }
      else c
    let afterAsync : Option GoErr × List StartEvent :=
      if c.m.type = "async" then
        match env.handlerStartErr with
        | some e => (some e, [StartEvent.handlerStart c.m])
        | none => (none, [StartEvent.handlerStart c.m])
      else (none, [])
    match afterAsync with
    | (some e, evs) => (some e, c, evs)
    | (none, evs) =>
      let evs := evs ++ [StartEvent.beforeCall c.m]
      match env.beforeCallErr with
      | some e => (some (GoErr.wrapped "BeforeCall" e), c, evs)
      | none => (none, c, evs)

/-- External inputs of one `End` run: the current time and the outcomes of
the two collaborator calls. -/
structure EndEnv where
  now : Nat
  finishErr : Option GoErr
  afterCallErr : Option GoErr
deriving DecidableEq, Repr

/-- Observable actions `End` performs on its collaborators, with the model
handed to each: the `handler.Finish` call, the log line written when
`Finish` errors, the `stderr.Close`, and the `fireAfterCall` call. -/
inductive EndEvent where
  | finish (m : ModelsCall) (isAsync : Bool)
  | logFinishError (e : GoErr)
  | stderrClose
  | afterCall (m : ModelsCall)
deriving DecidableEq, Repr

/-- `call.End` (src/api/agent/call.go lines 555-587). -/
def callEnd (env : EndEnv) (errIn : Option GoErr) (c : LiveCall) :
    Option GoErr × LiveCall × List EndEvent :=
  let m := { c.m with completedAt := env.now }
  let m :=
    match errIn with
    | none => { m with status := "success" }
    | some GoErr.deadlineExceeded => { m with status := "timeout" }
    | some e => { m with status := "error", error := e.message }
  let m := { m with stats := Decimate 240 m.stats }
  let c := { c with m := m }
  let evs := [EndEvent.finish m (m.type == "async")]
  let evs :=
    match env.finishErr with
    | some e => evs ++ [EndEvent.logFinishError e]
    | none => evs
  let c := { c with stderrClosed := true }
  let evs := evs ++ [EndEvent.stderrClose, EndEvent.afterCall m]
  match env.afterCallErr with
  | some e => (some (GoErr.wrapped "AfterCall" e), c, evs)
  | none => (errIn, c, evs)

/-! ## Helper lemmas -/

theorem decimate_keep_of_le (maxSamples : Nat) (stats : List Stat)
    (h : stats.length ≤ maxSamples) : Decimate maxSamples stats = stats := by
  simp [Decimate, h]

theorem decimate_length_of_lt (maxSamples : Nat) (stats : List Stat)
    (h : maxSamples < stats.length) :
    (Decimate maxSamples stats).length = maxSamples := by
  have h' : ¬ stats.length ≤ maxSamples := Nat.not_le.mpr h
  simp [Decimate, h']

theorem decimate_idx_lt (maxSamples len i : Nat)
    (h : maxSamples < len) (hi : i < maxSamples) :
    i * len / maxSamples < len := by
  have hmax : 0 < maxSamples := Nat.pos_of_ne_zero (by omega)
  have hlen : 0 < len := by omega
  rw [Nat.div_lt_iff_lt_mul hmax]
  calc i * len < maxSamples * len := mul_lt_mul_of_pos_right hi hlen
    _ = len * maxSamples := Nat.mul_comm _ _

theorem decimate_sorted (maxSamples : Nat) (stats : List Stat)
    (hs : List.Pairwise (fun a b => a.timestamp ≤ b.timestamp) stats) :
    List.Pairwise (fun a b => a.timestamp ≤ b.timestamp) (Decimate maxSamples stats) := by
  by_cases h : stats.length ≤ maxSamples
  · rw [decimate_keep_of_le maxSamples stats h]; exact hs
  · have hlt : maxSamples < stats.length := Nat.not_le.mp h
    rw [Decimate, if_neg h, List.pairwise_map]
    apply List.Pairwise.imp_of_mem ?_ (List.pairwise_lt_range maxSamples)
    intro i j hi hj hij
    have hi' := List.mem_range.mp hi
    have hj' := List.mem_range.mp hj
    have hidxi := decimate_idx_lt maxSamples stats.length i hlt hi'
    have hidxj := decimate_idx_lt maxSamples stats.length j hlt hj'
    have hgd : ∀ (k : Nat) (hk : k < stats.length),
        stats.getD k default = stats.get ⟨k, hk⟩ := by
      intro k hk
      simp [List.getD_eq_getElem?_getD, List.getElem?_eq_getElem hk, List.get_eq_getElem]
    rw [hgd _ hidxi, hgd _ hidxj]
    have hle : i * stats.length / maxSamples ≤ j * stats.length / maxSamples :=
      Nat.div_le_div_right (Nat.mul_le_mul (Nat.le_of_lt hij) (Nat.le_refl _))
    rcases Nat.eq_or_lt_of_le hle with heq | hlt'
    · simp only [heq]
      exact Nat.le_refl _
    · exact List.pairwise_iff_get.mp hs ⟨_, hidxi⟩ ⟨_, hidxj⟩ (Fin.mk_lt_mk.mpr hlt')

/-! ## Claims -/

/-- Claim C2: for every context and execution error `errIn`, `End` derives the
call's status from `errIn` — `nil` maps to `success`, `context.DeadlineExceeded`
to `timeout`, and any other non-nil error to `error` with that error's message
recorded in the call's `Error` field — and in all three cases sets
`CompletedAt`. -/
theorem end_status_mapping (env : EndEnv) (errIn : Option GoErr) (c : LiveCall) :
    ((callEnd env errIn c).2.1.m.completedAt = env.now)
  ∧ (errIn = none → (callEnd env errIn c).2.1.m.status = "success")
  ∧ (errIn = some GoErr.deadlineExceeded →
      (callEnd env errIn c).2.1.m.status = "timeout")
  ∧ (∀ e, errIn = some e → e ≠ GoErr.deadlineExceeded →
      (callEnd env errIn c).2.1.m.status = "error"
    ∧ (callEnd env errIn c).2.1.m.error = GoErr.message e) := by
  obtain ⟨now, fe, ae⟩ := env
  rcases errIn with _ | e
  · cases fe <;> cases ae <;> simp [callEnd]
  · cases e <;> cases fe <;> cases ae <;> simp [callEnd]

/-- Witness for C2 at concrete inputs: the three status outcomes. -/
theorem end_status_mapping_witness :
    ((callEnd ⟨7, none, none⟩ none {}).2.1.m.status = "success")
  ∧ ((callEnd ⟨7, none, none⟩ (some GoErr.deadlineExceeded) {}).2.1.m.status = "timeout")
  ∧ ((callEnd ⟨7, none, none⟩ (some (GoErr.mk "boom")) {}).2.1.m.status = "error"
   ∧ (callEnd ⟨7, none, none⟩ (some (GoErr.mk "boom")) {}).2.1.m.error = "boom") :=
  ⟨(end_status_mapping ⟨7, none, none⟩ none {}).2.1 rfl,
   (end_status_mapping ⟨7, none, none⟩ (some GoErr.deadlineExceeded) {}).2.2.1 rfl,
   (end_status_mapping ⟨7, none, none⟩ (some (GoErr.mk "boom")) {}).2.2.2
     (GoErr.mk "boom") rfl (by decide)⟩

/-- Claim C7: invoking `Start` with a context that is already done returns
that context's own error unchanged and performs no side effect: the call
state (status, started-at, response headers) is exactly the input state and
no collaborator event (persistence `Start`, `BeforeCall`) fires. -/
theorem start_on_done_context (env : StartEnv) (c : LiveCall) (e : GoErr)
    (h : env.ctxErr = some e) :
    callStart env c = (some e, c, []) := by
  obtain ⟨ce, now, hs, bc⟩ := env
  cases h
  rfl

/-- Witness for C7 at a concrete cancelled context. -/
theorem start_on_done_context_witness :
    callStart ⟨some GoErr.canceled, 3, none, none⟩ {} = (some GoErr.canceled, {}, []) :=
  start_on_done_context ⟨some GoErr.canceled, 3, none, none⟩ {} GoErr.canceled rfl

/-- Claim C8: an error from the persistence `Finish` hook never changes
`End`'s return value or the recorded call state (it is only logged); the
`AfterCall` hook fires after `Finish` even when `Finish` errored; an
`AfterCall` error is wrapped with the `AfterCall` prefix and returned instead
of `errIn`; and if `AfterCall` succeeds, `End` returns the original `errIn`
unchanged. -/
theorem end_hook_semantics (env : EndEnv) (errIn : Option GoErr) (c : LiveCall) :
    ((callEnd env errIn c).1 = (callEnd ⟨env.now, none, env.afterCallErr⟩ errIn c).1)
  ∧ ((callEnd env errIn c).2.1 = (callEnd ⟨env.now, none, env.afterCallErr⟩ errIn c).2.1)
  ∧ ((callEnd env errIn c).2.2 =
       [EndEvent.finish (callEnd env errIn c).2.1.m
          ((callEnd env errIn c).2.1.m.type == "async")]
       ++ (match env.finishErr with
           | some e => [EndEvent.logFinishError e]
           | none => [])
       ++ [EndEvent.stderrClose, EndEvent.afterCall (callEnd env errIn c).2.1.m])
  ∧ (∀ e, env.afterCallErr = some e →
       (callEnd env errIn c).1 = some (GoErr.wrapped "AfterCall" e))
  ∧ (env.afterCallErr = none → (callEnd env errIn c).1 = errIn) := by
  obtain ⟨now, fe, ae⟩ := env
  rcases errIn with _ | e
  · cases fe <;> cases ae <;> simp [callEnd]
  · cases e <;> cases fe <;> cases ae <;> simp [callEnd]

/-- Witness for C8 at concrete inputs: a `Finish` error changes nothing, an
`AfterCall` error is returned wrapped, and with both hooks fine the original
error comes back. -/
theorem end_hook_semantics_witness :
    ((callEnd ⟨2, some (GoErr.mk "db down"), none⟩ (some (GoErr.mk "ex")) {}).1
       = (callEnd ⟨2, none, none⟩ (some (GoErr.mk "ex")) {}).1)
  ∧ ((callEnd ⟨2, none, some (GoErr.mk "hook")⟩ none {}).1
       = some (GoErr.wrapped "AfterCall" (GoErr.mk "hook")))
  ∧ ((callEnd ⟨2, none, none⟩ (some (GoErr.mk "ex")) {}).1 = some (GoErr.mk "ex")) :=
  ⟨(end_hook_semantics ⟨2, some (GoErr.mk "db down"), none⟩ (some (GoErr.mk "ex")) {}).1,
   (end_hook_semantics ⟨2, none, some (GoErr.mk "hook")⟩ none {}).2.2.2.1
     (GoErr.mk "hook") rfl,
   (end_hook_semantics ⟨2, none, none⟩ (some (GoErr.mk "ex")) {}).2.2.2.2 rfl⟩

/-- Claim C9: when the call carries more than 240 raw statistics samples,
`End` bounds the retained stats to exactly 240 samples, preserving
chronological order, and the `Finish` persistence hook (the first
collaborator event) already receives the decimated model.  `drivers.Decimate`
itself is modelled from the spec. -/
theorem end_stats_decimation (env : EndEnv) (errIn : Option GoErr) (c : LiveCall)
    (h : 240 < c.m.stats.length) :
    ((callEnd env errIn c).2.1.m.stats.length = 240)
  ∧ (List.Pairwise (fun a b => a.timestamp ≤ b.timestamp) c.m.stats →
      List.Pairwise (fun a b => a.timestamp ≤ b.timestamp)
        (callEnd env errIn c).2.1.m.stats)
  ∧ ((callEnd env errIn c).2.2.head? =
      some (EndEvent.finish (callEnd env errIn c).2.1.m
        ((callEnd env errIn c).2.1.m.type == "async")))
  ∧ ((callEnd env errIn c).2.1.m.stats = Decimate 240 c.m.stats) := by
  have hstats : (callEnd env errIn c).2.1.m.stats = Decimate 240 c.m.stats := by
    obtain ⟨now, fe, ae⟩ := env
    rcases errIn with _ | e
    · cases ae <;> simp [callEnd]
    · cases e <;> cases ae <;> simp [callEnd]
  have hhead : (callEnd env errIn c).2.2.head? =
      some (EndEvent.finish (callEnd env errIn c).2.1.m
        ((callEnd env errIn c).2.1.m.type == "async")) := by
    obtain ⟨now, fe, ae⟩ := env
    rcases errIn with _ | e
    · cases fe <;> cases ae <;> simp [callEnd]
    · cases e <;> cases fe <;> cases ae <;> simp [callEnd]
  refine ⟨?_, ?_, hhead, hstats⟩
  · rw [hstats]
    exact decimate_length_of_lt 240 c.m.stats h
  · intro hp
    rw [hstats]
    exact decimate_sorted 240 c.m.stats hp

/-- A concrete 241-sample statistics series. -/
def sampleStats241 : List Stat :=
  (List.range 241).map (fun i => { timestamp := i, metrics := [] })

/-- Witness for C9 on a concrete 241-sample series. -/
theorem end_stats_decimation_witness :
    (callEnd ⟨1, none, none⟩ none
      { m := { stats := sampleStats241 } }).2.1.m.stats.length = 240 :=
  (end_stats_decimation ⟨1, none, none⟩ none
    { m := { stats := sampleStats241 } } (by simp [sampleStats241])).1

/-- The configurator loop of `GetCall` splits over list append: the prefix
runs first, and its outcome feeds the rest. -/
theorem applyOpts_append (xs ys : List CallOptF) (c : CallRec) :
    applyOpts (xs ++ ys) c =
      match applyOpts xs c with
      | .error e => .error e
      | .ok c' => applyOpts ys c' := by
  induction xs generalizing c with
  | nil => simp [applyOpts]
  | cons o os ih =>
    simp only [List.cons_append, applyOpts]
    cases o c with
    | error e => rfl
    | ok c' => exact ih c'

/-- Claim C6: `GetCall` applies the configurators in list order, stops at and
returns verbatim the first configurator error, and errors explicitly when all
configurators succeed without populating the call model. -/
theorem getCall_pipeline (a : Agent) (opts : List CallOptF) :
    (∀ (pre : List CallOptF) (o : CallOptF) (post : List CallOptF)
       (c' : CallRec) (e : GoErr),
       opts = pre ++ o :: post → applyOpts pre {} = .ok c' → o c' = .error e →
       applyOpts opts {} = .error e ∧ (GetCall a opts).result = .error e)
  ∧ (∀ cfin : CallRec, applyOpts opts {} = .ok cfin → cfin.model = none →
       (GetCall a opts).result = .error GoErr.noModelProvided) := by
  constructor
  · rintro pre o post c' e rfl h1 h2
    have hall : applyOpts (pre ++ o :: post) {} = .error e := by
      rw [applyOpts_append, h1]
      simp [applyOpts, h2]
    exact ⟨hall, by simp [GetCall, hall]⟩
  · intro cfin h1 h2
    simp [GetCall, h1, h2]

/-- Witness for C6: a failing middle configurator's error is surfaced
verbatim, and an all-successful pipeline that never set a model yields the
explicit no-model error. -/
theorem getCall_pipeline_witness :
    ((GetCall ⟨none, fun _ _ _ => true⟩
        [WithWriter true, fun _ => .error (GoErr.mk "boom"), WithExtensions []]).result
      = .error (GoErr.mk "boom"))
  ∧ ((GetCall ⟨none, fun _ _ _ => true⟩ [WithWriter true]).result
      = .error GoErr.noModelProvided) :=
  ⟨((getCall_pipeline ⟨none, fun _ _ _ => true⟩ _).1 [WithWriter true]
      (fun _ => .error (GoErr.mk "boom")) [WithExtensions []]
      { wSet := true, wIsHTTP := true } (GoErr.mk "boom") rfl rfl rfl).2,
   (getCall_pipeline ⟨none, fun _ _ _ => true⟩ _).2
     { wSet := true, wIsHTTP := true } rfl rfl⟩

/-- Claim C1: for every assembled call, the admission query is made on demand
`Memory + TmpFsSize`, with the CPU quantity passed independently and the
async flag forwarded; whenever the resource collaborator answers false for
that demand, `GetCall` returns exactly the typed server-busy error, no call
handle, and no lifecycle hook has fired. -/
theorem getCall_admission (a : Agent) (opts : List CallOptF) (c : CallRec)
    (m m' : ModelsCall) (ext' : List (String × String))
    (h1 : applyOpts opts {} = .ok c)
    (h2 : c.model = some m)
    (h3 : runOverrider a m c.extensions = .ok (m', ext'))
    (hmem : m'.memory + m'.tmpFsSize < U64)
    (hcpu : m'.cpus < U64) :
    ((GetCall a opts).admissionChecks =
        [(m'.memory + m'.tmpFsSize, m'.cpus, m'.type == "async")])
  ∧ (a.isResourcePossible (m'.memory + m'.tmpFsSize) m'.cpus (m'.type == "async") = false →
        (GetCall a opts).result = .error GoErr.errCallTimeoutServerBusy
      ∧ (GetCall a opts).hookFires = []) := by
  have e1 : (m'.memory + m'.tmpFsSize) % U64 = m'.memory + m'.tmpFsSize :=
    Nat.mod_eq_of_lt hmem
  have e2 : m'.cpus % U64 = m'.cpus := Nat.mod_eq_of_lt hcpu
  constructor
  · by_cases hb : a.isResourcePossible (m'.memory + m'.tmpFsSize) m'.cpus
        (m'.type == "async") = false
    · simp [GetCall, h1, h2, h3, e1, e2, hb]
    · simp [GetCall, h1, h2, h3, e1, e2, hb]
  · intro hb
    constructor
    · simp [GetCall, h1, h2, h3, e1, e2, hb]
    · simp [GetCall, h1, h2, h3, e1, e2, hb]

/-- Witness for C1: a one-configurator assembly rejected by an
always-busy resource collaborator. -/
theorem getCall_admission_witness :
    ((GetCall ⟨none, fun _ _ _ => false⟩
        [FromModel { memory := 128, tmpFsSize := 16, type := "sync" }]).result
      = .error GoErr.errCallTimeoutServerBusy)
  ∧ ((GetCall ⟨none, fun _ _ _ => false⟩
        [FromModel { memory := 128, tmpFsSize := 16, type := "sync" }]).admissionChecks
      = [(144, 0, false)])
  ∧ ((GetCall ⟨none, fun _ _ _ => false⟩
        [FromModel { memory := 128, tmpFsSize := 16, type := "sync" }]).hookFires = []) := by
  have h := getCall_admission ⟨none, fun _ _ _ => false⟩
    [FromModel { memory := 128, tmpFsSize := 16, type := "sync" }]
    { model := some { memory := 128, tmpFsSize := 16, type := "sync" } }
    { memory := 128, tmpFsSize := 16, type := "sync" }
    { memory := 128, tmpFsSize := 16, type := "sync" } []
    rfl rfl rfl (by norm_num [U64]) (by norm_num [U64])
  refine ⟨(h.2 rfl).1, ?_, (h.2 rfl).2⟩
  have := h.1
  simpa using this

/-- Claim C3 (counter-evaluation): `FromEvent` returns its typed error only
when the extensions value is not a map at all; a missing or wrongly typed
`app` entry panics on an unchecked type assertion instead of returning a
typed error; and even a well-shaped `app`/`fn`/`trigger` extension map
panics, because the code reads the trigger extension from key `"fn"` (which
holds the `Fn`), so extraction never succeeds on the expected shape. -/
theorem fromEvent_extensions_behavior :
    (FromEvent ⟨ExtDyn.nonMap "not-a-map"⟩ "id1" {} = .err GoErr.extensionsNotMap)
  ∧ (FromEvent ⟨ExtDyn.map []⟩ "id1" {} = .panicked "interface conversion to App")
  ∧ (FromEvent ⟨ExtDyn.map [("app", ExtVal.otherV "junk")]⟩ "id1" {}
      = .panicked "interface conversion to App")
  ∧ (FromEvent ⟨ExtDyn.map
        [("app", ExtVal.appV ⟨"a1", "myapp", none, [], []⟩),
         ("fn", ExtVal.fnV ⟨"f1", "img", "", 30, 30, 128, [], []⟩),
         ("trigger", ExtVal.triggerV ⟨"t1", "/t", []⟩)]⟩ "id1" {}
      = .panicked "interface conversion to Trigger") :=
  ⟨rfl, rfl, rfl, rfl⟩

/-- Counterexample to C4 as stated: the trigger-path synthesized config lacks
the ephemeral-storage key entirely, and the route-path config can contain the
CPU key despite an empty CPU-quantity string, when the user supplied such an
entry. -/
theorem buildTriggerConfig_counterexample :
    ((buildTriggerConfig ⟨"a1", "myapp", none, [], []⟩
        ⟨"f1", "img", "default", 30, 30, 128, [], []⟩
        ⟨"t1", "/t", []⟩).get? "FN_TMPSIZE" = none)
  ∧ (milliCPUsStr 0 = "")
  ∧ ((buildConfig ⟨"a1", "myapp", none, [], []⟩
        { path := "/r", image := "img", type := "sync", format := "default",
          timeout := 30, idleTimeout := 30, tmpFsSize := 0, memory := 128,
          cpus := 0, config := [("FN_CPUS", "5")], annots := [],
          headers := [] }).get? "FN_CPUS" = some "5") :=
  ⟨by decide, rfl, by decide⟩

/-- The user-supplied layer of a synthesized config: the app-level entries
then the route/function-level entries, later writes winning. -/
def userConf (a b : List (String × String)) : ConfigMap :=
  ConfigMap.writeAll (ConfigMap.writeAll [] a) b

/-- Claim C4 (amended): for every app/route pair the synthesized config
contains format, app name, path, memory (decimal), execution type and
ephemeral-storage size (decimal), with the CPU key synthesized exactly when
the CPU quantity's string form is non-empty (when it is empty, only a
user-supplied entry of that name can remain); for every app/function/trigger
triple the synthesized keys are format, app name, the trigger source as
path, memory (decimal), the fixed `sync` type and the function id — no
ephemeral-storage and no CPU key is synthesized on that path.  Every
synthesized key overrides a user-supplied config entry of the same name. -/
theorem buildConfig_synthesized_keys (app : App) (route : Route) (fn : Fn)
    (trigger : Trigger) :
    ((buildConfig app route).get? "FN_FORMAT" = some route.format)
  ∧ ((buildConfig app route).get? "FN_APP_NAME" = some app.name)
  ∧ ((buildConfig app route).get? "FN_PATH" = some route.path)
  ∧ ((buildConfig app route).get? "FN_MEMORY" = some (toString route.memory))
  ∧ ((buildConfig app route).get? "FN_TYPE" = some route.type)
  ∧ ((buildConfig app route).get? "FN_TMPSIZE" = some (toString route.tmpFsSize))
  ∧ (milliCPUsStr route.cpus ≠ "" →
      (buildConfig app route).get? "FN_CPUS" = some (milliCPUsStr route.cpus))
  ∧ (milliCPUsStr route.cpus = "" →
      (buildConfig app route).get? "FN_CPUS"
        = (userConf app.config route.config).get? "FN_CPUS")
  ∧ ((buildTriggerConfig app fn trigger).get? "FN_FORMAT" = some fn.format)
  ∧ ((buildTriggerConfig app fn trigger).get? "FN_APP_NAME" = some app.name)
  ∧ ((buildTriggerConfig app fn trigger).get? "FN_PATH" = some trigger.source)
  ∧ ((buildTriggerConfig app fn trigger).get? "FN_MEMORY" = some (toString fn.memory))
  ∧ ((buildTriggerConfig app fn trigger).get? "FN_TYPE" = some "sync")
  ∧ ((buildTriggerConfig app fn trigger).get? "FN_FN_ID" = some fn.id)
  ∧ ((buildTriggerConfig app fn trigger).get? "FN_TMPSIZE"
      = (userConf app.config fn.config).get? "FN_TMPSIZE")
  ∧ ((buildTriggerConfig app fn trigger).get? "FN_CPUS"
      = (userConf app.config fn.config).get? "FN_CPUS") := by
  rcases eq_or_ne (milliCPUsStr route.cpus) "" with hc | hc <;>
    refine ⟨?_, ?_, ?_, ?_, ?_, ?_, ?_, ?_, ?_, ?_, ?_, ?_, ?_, ?_, ?_, ?_⟩ <;>
    simp [buildConfig, buildTriggerConfig, userConf, ConfigMap.get?, ConfigMap.set, hc]

/-- Sample app for the C4 witness. -/
def appW : App := ⟨"a1", "myapp", none, [("FN_PATH", "user-path")], []⟩

/-- Sample route (non-empty CPU quantity, user config colliding with a
synthesized key) for the C4 witness. -/
def routeW : Route :=
  { path := "/r", image := "img", type := "sync", format := "default",
    timeout := 30, idleTimeout := 30, tmpFsSize := 64, memory := 128,
    cpus := 100, config := [("FN_FORMAT", "user-format")], annots := [],
    headers := [] }

/-- Sample route with a zero CPU quantity and a user `FN_CPUS` entry. -/
def routeW0 : Route := { routeW with cpus := 0, config := [("FN_CPUS", "5")] }

/-- Sample fn for the C4 witness. -/
def fnW : Fn := ⟨"f1", "img", "default", 30, 30, 128, [("X", "y")], []⟩

/-- Sample trigger for the C4 witness. -/
def trigW : Trigger := ⟨"t1", "/src", []⟩

/-- Witness for the amended C4 on concrete configuration pairs. -/
theorem buildConfig_synthesized_keys_witness :
    ((buildConfig appW routeW).get? "FN_PATH" = some "/r")
  ∧ ((buildConfig appW routeW).get? "FN_FORMAT" = some "default")
  ∧ ((buildConfig appW routeW).get? "FN_CPUS" = some (milliCPUsStr 100))
  ∧ ((buildConfig appW routeW0).get? "FN_CPUS" = some "5")
  ∧ ((buildTriggerConfig appW fnW trigW).get? "FN_PATH" = some "/src") := by
  obtain ⟨w1, w2, w3, w4, w5, w6, w7, w8, w9, w10, w11, w12, w13, w14, w15, w16⟩ :=
    buildConfig_synthesized_keys appW routeW fnW trigW
  obtain ⟨v1, v2, v3, v4, v5, v6, v7, v8, v9, v10, v11, v12, v13, v14, v15, v16⟩ :=
    buildConfig_synthesized_keys appW routeW0 fnW trigW
  exact ⟨w3, w1, w7 (by decide), (v8 (by decide)).trans (by decide), w11⟩

/-- Claim C5: in both HTTP source configurators, a Content-Type that parses
to exactly `application/cloudevents+json` (charset parameter already
stripped by the parser) sets the call's event flag and forces the cloudevent
format onto the source object and the assembled model; any other or
unparsable content type leaves the event flag as it was and the format falls
back to the source-declared format, or the default when empty; and the
content-type handling itself never yields an error — the only error sources
are route validation and the body read. -/
theorem contentType_sniffing (app : App) (route : Route) (fn : Fn)
    (trigger : Trigger) (req : Request) (newId : String) (now : Nat) (c : CallRec) :
    (req.parsedCT = some ceMimeType →
        ((FromRequest app route req newId now c).c.isCloudEvent = true)
      ∧ ((FromRequest app route req newId now c).route.format = "cloudevent")
      ∧ ((FromRequest app route req newId now c).err = none →
          ∀ m, (FromRequest app route req newId now c).c.model = some m →
            m.format = "cloudevent")
      ∧ ((FromHTTPTriggerRequest app fn trigger req newId now c).c.isCloudEvent = true)
      ∧ ((FromHTTPTriggerRequest app fn trigger req newId now c).fn.format = "cloudevent")
      ∧ (∀ m, (FromHTTPTriggerRequest app fn trigger req newId now c).c.model = some m →
            m.format = "cloudevent"))
  ∧ (req.parsedCT ≠ some ceMimeType →
        ((FromRequest app route req newId now c).c.isCloudEvent = c.isCloudEvent)
      ∧ ((FromRequest app route req newId now c).route.format =
            (if route.format = "" then "default" else route.format))
      ∧ ((FromRequest app route req newId now c).err = none →
          ∀ m, (FromRequest app route req newId now c).c.model = some m →
            m.format = (if route.format = "" then "default" else route.format))
      ∧ ((FromHTTPTriggerRequest app fn trigger req newId now c).c.isCloudEvent
            = c.isCloudEvent)
      ∧ ((FromHTTPTriggerRequest app fn trigger req newId now c).fn.format =
            (if fn.format = "" then "default" else fn.format))
      ∧ (∀ m, (FromHTTPTriggerRequest app fn trigger req newId now c).c.model = some m →
            m.format = (if fn.format = "" then "default" else fn.format)))
  ∧ (∀ s, req.bodyRead = .ok s →
        (routeValidate (FromRequest app route req newId now c).route = none →
            (FromRequest app route req newId now c).err = none)
      ∧ ((FromHTTPTriggerRequest app fn trigger req newId now c).err = none)) := by
  obtain ⟨pct, hdrs, mthd, url, body⟩ := req
  refine ⟨?_, ?_, ?_⟩
  · rintro rfl
    refine ⟨?_, ?_, ?_, ?_, ?_, ?_⟩ <;>
      rcases body with e | s <;>
      simp only [FromRequest, FromHTTPTriggerRequest, ceSniff_ce] <;>
      (try split) <;> simp_all
  · intro hne
    refine ⟨?_, ?_, ?_, ?_, ?_, ?_⟩ <;>
      rcases body with e | s <;>
      simp only [FromRequest, FromHTTPTriggerRequest,
        ceSniff_other pct c.isCloudEvent route.format hne,
        ceSniff_other pct c.isCloudEvent fn.format hne] <;>
      (try split) <;> simp_all
  · rintro s rfl
    constructor
    · intro hv
      simp only [FromRequest] at hv ⊢
      split at hv <;> simp_all
    · simp only [FromHTTPTriggerRequest]

/-- Witness for C5: a cloudevent request forces the event flag and format; a
plain request leaves them; neither errors on content-type handling. -/
theorem contentType_sniffing_witness :
    ((FromRequest appW routeW ⟨some ceMimeType, [], "GET", "http://h/r", .ok "b"⟩
        "id1" 5 {}).c.isCloudEvent = true)
  ∧ ((FromRequest appW routeW ⟨some ceMimeType, [], "GET", "http://h/r", .ok "b"⟩
        "id1" 5 {}).route.format = "cloudevent")
  ∧ ((FromRequest appW routeW ⟨some "text/plain", [], "GET", "http://h/r", .ok "b"⟩
        "id1" 5 {}).c.isCloudEvent = false)
  ∧ ((FromHTTPTriggerRequest appW fnW trigW
        ⟨none, [], "GET", "http://h/t", .ok "b"⟩ "id1" 5 {}).err = none) := by
  refine ⟨?_, ?_, ?_, ?_⟩
  · exact ((contentType_sniffing appW routeW fnW trigW
      ⟨some ceMimeType, [], "GET", "http://h/r", .ok "b"⟩ "id1" 5 {}).1 rfl).1
  · exact ((contentType_sniffing appW routeW fnW trigW
      ⟨some ceMimeType, [], "GET", "http://h/r", .ok "b"⟩ "id1" 5 {}).1 rfl).2.1
  · exact ((contentType_sniffing appW routeW fnW trigW
      ⟨some "text/plain", [], "GET", "http://h/r", .ok "b"⟩ "id1" 5 {}).2.1
        (by decide)).1
  · exact ((contentType_sniffing appW routeW fnW trigW
      ⟨none, [], "GET", "http://h/t", .ok "b"⟩ "id1" 5 {}).2.2 "b" rfl).2

/-- Claim C10: the route-request and HTTP-trigger configurators mutate the
caller-supplied route and function objects, not only the call under
assembly: on cloudevent detection, or when the source format is empty, the
`Format` field of the caller's route (resp. fn) is overwritten, so the
caller's configuration object does not stay unchanged across assembly. -/
theorem configurators_mutate_caller_objects (app : App) (route : Route) (fn : Fn)
    (trigger : Trigger) (req : Request) (newId : String) (now : Nat) (c : CallRec) :
    (req.parsedCT = some ceMimeType →
        ((FromRequest app route req newId now c).route
            = { route with format := "cloudevent" })
      ∧ ((FromHTTPTriggerRequest app fn trigger req newId now c).fn
            = { fn with format := "cloudevent" })
      ∧ (route.format ≠ "cloudevent" →
            (FromRequest app route req newId now c).route ≠ route)
      ∧ (fn.format ≠ "cloudevent" →
            (FromHTTPTriggerRequest app fn trigger req newId now c).fn ≠ fn))
  ∧ (req.parsedCT ≠ some ceMimeType → route.format = "" →
        ((FromRequest app route req newId now c).route
            = { route with format := "default" })
      ∧ ((FromRequest app route req newId now c).route ≠ route))
  ∧ (req.parsedCT ≠ some ceMimeType → fn.format = "" →
        ((FromHTTPTriggerRequest app fn trigger req newId now c).fn
            = { fn with format := "default" })
      ∧ ((FromHTTPTriggerRequest app fn trigger req newId now c).fn ≠ fn)) := by
  obtain ⟨pct, hdrs, mthd, url, body⟩ := req
  refine ⟨?_, ?_, ?_⟩
  · rintro rfl
    have hr : (FromRequest app route ⟨some ceMimeType, hdrs, mthd, url, body⟩
        newId now c).route = { route with format := "cloudevent" } := by
      rcases body with e | s <;>
        simp only [FromRequest, ceSniff_ce] <;> (try split) <;> (try simp_all)
    have hf : (FromHTTPTriggerRequest app fn trigger
        ⟨some ceMimeType, hdrs, mthd, url, body⟩ newId now c).fn
          = { fn with format := "cloudevent" } := by
      rcases body with e | s <;>
        simp only [FromHTTPTriggerRequest, ceSniff_ce]
    refine ⟨hr, hf, ?_, ?_⟩
    · intro hfmt heq
      rw [hr] at heq
      have := congrArg Route.format heq
      simp at this
      exact hfmt this.symm
    · intro hfmt heq
      rw [hf] at heq
      have := congrArg Fn.format heq
      simp at this
      exact hfmt this.symm
  · intro hne hempty
    have hr : (FromRequest app route ⟨pct, hdrs, mthd, url, body⟩
        newId now c).route = { route with format := "default" } := by
      rcases body with e | s <;>
        simp only [FromRequest, ceSniff_other pct c.isCloudEvent route.format hne] <;>
        simp [hempty] <;> (try split) <;> (try simp_all)
    refine ⟨hr, ?_⟩
    intro heq
    rw [hr] at heq
    have := congrArg Route.format heq
    simp [hempty] at this
  · intro hne hempty
    have hf : (FromHTTPTriggerRequest app fn trigger ⟨pct, hdrs, mthd, url, body⟩
        newId now c).fn = { fn with format := "default" } := by
      rcases body with e | s <;>
        simp only [FromHTTPTriggerRequest, ceSniff_other pct c.isCloudEvent fn.format hne] <;>
        simp [hempty]
    refine ⟨hf, ?_⟩
    intro heq
    rw [hf] at heq
    have := congrArg Fn.format heq
    simp [hempty] at this

/-- Witness for C10: concrete cloudevent and empty-format requests change
the caller's route/fn objects. -/
theorem configurators_mutate_caller_objects_witness :
    ((FromRequest appW routeW ⟨some ceMimeType, [], "GET", "http://h/r", .ok "b"⟩
        "id1" 5 {}).route ≠ routeW)
  ∧ ((FromHTTPTriggerRequest appW { fnW with format := "" } trigW
        ⟨some "text/plain", [], "GET", "http://h/t", .ok "b"⟩ "id1" 5 {}).fn
      ≠ { fnW with format := "" }) := by
  constructor
  · exact ((configurators_mutate_caller_objects appW routeW fnW trigW
      ⟨some ceMimeType, [], "GET", "http://h/r", .ok "b"⟩ "id1" 5 {}).1 rfl).2.2.1
        (by decide)
  · exact ((configurators_mutate_caller_objects appW routeW { fnW with format := "" }
      trigW ⟨some "text/plain", [], "GET", "http://h/t", .ok "b"⟩ "id1" 5 {}).2.2
        (by decide) rfl).2

end FnAgent
